import Mathlib

/-!
Verification of the `foundry-updates` RSS feed generator
(`generate_rss_feed.py`) against its specification.

The pipeline is embedded shallowly:
* Python strings are Lean `String`s; `len`/slicing act on code points,
  matching Python semantics (one `Char` per code point).
* `hashlib.sha256(...).hexdigest()` is implemented from the SHA-256
  standard over byte lists (`Nat < 256`), with 32-bit words as `Nat`
  reduced mod `2^32`.
* `xml.etree.ElementTree` elements are a tree type `XmlElem` with tag,
  attributes, text and children; `generate_rss_feed` builds that tree.
* LLM replies are parsed with a JSON parser (`jsonLoads`) modelling
  `json.loads`: it returns `none` exactly when `json.JSONDecodeError`
  would be raised; Python values post-parse are the type `PyVal`.
* HTML documents are a tree type `Html`; BeautifulSoup traversals
  (`find`, `find_all`, `get_text`, `decompose`) are recursive functions
  over it.
* `main` is modelled as a pure function from the environment and the
  (assumed successful) network responses to a trace of observable
  events plus an exit code, so "no network activity happened" is the
  absence of the corresponding events in the trace.
-/

/-! ### Python string primitives

Helpers for Python's `str.strip`, `str.split('\n')`, slicing and `len`,
defined structurally over `List Char` so they can be reasoned about. -/

/-- The characters removed by Python `str.strip()`: exactly those with
`str.isspace()` true — ASCII whitespace, the separators U+001C–U+001F,
NEL, and the Unicode space/line/paragraph separators. -/
def pySpace (c : Char) : Bool :=
  c = ' ' || c = '\t' || c = '\n' || c = '\r' || c = '\x0b' || c = '\x0c' ||
  ('\x1c' ≤ c && c ≤ '\x1f') || c = '\x85' || c = '\u00a0' ||
  c = '\u1680' || ('\u2000' ≤ c && c ≤ '\u200a') || c = '\u2028' ||
  c = '\u2029' || c = '\u202f' || c = '\u205f' || c = '\u3000'

/-- Python `str.strip()` on a character list. -/
def stripChars (l : List Char) : List Char :=
  ((l.dropWhile pySpace).reverse.dropWhile pySpace).reverse

/-- Python `str.strip()` on strings. -/
def pyStrip (s : String) : String := ⟨stripChars s.data⟩

/-- Python `s.split('\n')` (always non-empty; keeps empty segments). -/
def splitNL : List Char → List (List Char)
  | [] => [[]]
  | c :: rest =>
      match splitNL rest with
      | [] => [[c]]
      | a :: as => if c = '\n' then [] :: a :: as else (c :: a) :: as

/-- Python `'\n'.join` on character lists. -/
def joinNL (ls : List (List Char)) : List Char :=
  match ls with
  | [] => []
  | a :: rest => a ++ rest.foldr (fun l acc => '\n' :: l ++ acc) []

/-- The line cleanup performed at the end of `fetch_page_content`:
`lines = [line.strip() for line in content.split('\n') if line.strip()]`
followed by `'\n'.join(lines)`. -/
def cleanupLines (s : String) : String :=
  ⟨joinNL (((splitNL s.data).map stripChars).filter (· ≠ []))⟩

/-- Python `len` on a string: number of code points. -/
def pyLenStr (s : String) : Nat := s.data.length

/-- Python `s[:n]` on a string: first `n` code points. -/
def pyTake (n : Nat) (s : String) : String := ⟨s.data.take n⟩

/-! ### SHA-256 (`hashlib.sha256`), over UTF-8 bytes -/

/-- UTF-8 encoding of one code point (Python `str.encode()` per char). -/
def utf8Char (c : Char) : List Nat :=
  let n := c.toNat
  if n < 0x80 then [n]
  else if n < 0x800 then
    [0xC0 + n / 64, 0x80 + n % 64]
  else if n < 0x10000 then
    [0xE0 + n / 4096, 0x80 + (n / 64) % 64, 0x80 + n % 64]
  else
    [0xF0 + n / 262144, 0x80 + (n / 4096) % 64, 0x80 + (n / 64) % 64,
     0x80 + n % 64]

/-- Python `s.encode()`: UTF-8 bytes of a string. -/
def utf8Bytes (s : String) : List Nat := s.data.flatMap utf8Char

/-- Truncation to a 32-bit word. -/
def m32 (n : Nat) : Nat := n % 4294967296

/-- Rotation right by `k` bits in a 32-bit word. -/
def rotr (k n : Nat) : Nat := m32 ((n >>> k) ||| (n <<< (32 - k)))

def bsig0 (x : Nat) : Nat := (rotr 2 x) ^^^ (rotr 13 x) ^^^ (rotr 22 x)
def bsig1 (x : Nat) : Nat := (rotr 6 x) ^^^ (rotr 11 x) ^^^ (rotr 25 x)
def ssig0 (x : Nat) : Nat := (rotr 7 x) ^^^ (rotr 18 x) ^^^ (x >>> 3)
def ssig1 (x : Nat) : Nat := (rotr 17 x) ^^^ (rotr 19 x) ^^^ (x >>> 10)

/-- SHA-256 round constants. -/
def sha256K : List Nat :=
  [1116352408, 1899447441, 3049323471, 3921009573, 961987163,
   1508970993, 2453635748, 2870763221, 3624381080, 310598401,
   607225278, 1426881987, 1925078388, 2162078206, 2614888103,
   3248222580, 3835390401, 4022224774, 264347078, 604807628,
   770255983, 1249150122, 1555081692, 1996064986, 2554220882,
   2821834349, 2952996808, 3210313671, 3336571891, 3584528711,
   113926993, 338241895, 666307205, 773529912, 1294757372,
   1396182291, 1695183700, 1986661051, 2177026350, 2456956037,
   2730485921, 2820302411, 3259730800, 3345764771, 3516065817,
   3600352804, 4094571909, 275423344, 430227734, 506948616,
   659060556, 883997877, 958139571, 1322822218, 1537002063,
   1747873779, 1955562222, 2024104815, 2227730452, 2361852424,
   2428436474, 2756734187, 3204031479, 3329325298]

/-- SHA-256 padding: append `0x80`, zero bytes to 56 mod 64, and the
bit length as an 8-byte big-endian integer. -/
def sha256Pad (msg : List Nat) : List Nat :=
  let len := msg.length
  let zeros := (119 - len % 64) % 64
  let bits := len * 8
  msg ++ [0x80] ++ List.replicate zeros 0 ++
    [bits / 2 ^ 56 % 256, bits / 2 ^ 48 % 256, bits / 2 ^ 40 % 256,
     bits / 2 ^ 32 % 256, bits / 2 ^ 24 % 256, bits / 2 ^ 16 % 256,
     bits / 2 ^ 8 % 256, bits % 256]

/-- Group bytes into big-endian 32-bit words. -/
def bytesToWords : List Nat → List Nat
  | a :: b :: c :: d :: rest =>
      (a * 16777216 + b * 65536 + c * 256 + d) :: bytesToWords rest
  | _ => []

/-- Group a word list into 16-word blocks. -/
def words16 : List Nat → List (List Nat)
  | w0 :: w1 :: w2 :: w3 :: w4 :: w5 :: w6 :: w7 ::
    w8 :: w9 :: w10 :: w11 :: w12 :: w13 :: w14 :: w15 :: rest =>
      [w0, w1, w2, w3, w4, w5, w6, w7,
       w8, w9, w10, w11, w12, w13, w14, w15] :: words16 rest
  | _ => []

/-- Extend 16 message words to 64 schedule words. -/
def extendW (n : Nat) (ws : Array Nat) : Array Nat :=
  match n with
  | 0 => ws
  | n + 1 =>
      let t := ws.size
      let w := m32 (ssig1 (ws.getD (t - 2) 0) + ws.getD (t - 7) 0 +
                    ssig0 (ws.getD (t - 15) 0) + ws.getD (t - 16) 0)
      extendW n (ws.push w)

/-- One block's 64 compression rounds, given the schedule and constants. -/
def sha256Rounds : List Nat → List Nat →
    Nat × Nat × Nat × Nat × Nat × Nat × Nat × Nat →
    Nat × Nat × Nat × Nat × Nat × Nat × Nat × Nat
  | w :: ws, k :: ks, (a, b, c, d, e, f, g, h) =>
      let ch := (e &&& f) ^^^ ((4294967295 ^^^ e) &&& g)
      let maj := (a &&& b) ^^^ (a &&& c) ^^^ (b &&& c)
      let t1 := m32 (h + bsig1 e + ch + k + w)
      let t2 := m32 (bsig0 a + maj)
      sha256Rounds ws ks (m32 (t1 + t2), a, b, c, m32 (d + t1), e, f, g)
  | _, _, st => st

/-- Process one 16-word block, updating the 8-word hash state. -/
def sha256Block (hs : Nat × Nat × Nat × Nat × Nat × Nat × Nat × Nat)
    (block : List Nat) : Nat × Nat × Nat × Nat × Nat × Nat × Nat × Nat :=
  let (h0, h1, h2, h3, h4, h5, h6, h7) := hs
  let w := (extendW 48 (Array.mk block)).toList
  let (a, b, c, d, e, f, g, h) :=
    sha256Rounds w sha256K (h0, h1, h2, h3, h4, h5, h6, h7)
  (m32 (h0 + a), m32 (h1 + b), m32 (h2 + c), m32 (h3 + d),
   m32 (h4 + e), m32 (h5 + f), m32 (h6 + g), m32 (h7 + h))

/-- SHA-256 of a byte list: the eight 32-bit hash words. -/
def sha256Words (msg : List Nat) : List Nat :=
  let blocks := words16 (bytesToWords (sha256Pad msg))
  let (h0, h1, h2, h3, h4, h5, h6, h7) :=
    blocks.foldl sha256Block
      (1779033703, 3144134277, 1013904242, 2773480762,
       1359893119, 2600822924, 528734635, 1541459225)
  [h0, h1, h2, h3, h4, h5, h6, h7]

/-- One hex digit. -/
def hexDigit (n : Nat) : Char :=
  (("0123456789abcdef".data).getD n '0')

/-- Eight lowercase hex digits of a 32-bit word. -/
def hexWord (n : Nat) : List Char :=
  [hexDigit (n / 2 ^ 28 % 16), hexDigit (n / 2 ^ 24 % 16),
   hexDigit (n / 2 ^ 20 % 16), hexDigit (n / 2 ^ 16 % 16),
   hexDigit (n / 2 ^ 12 % 16), hexDigit (n / 2 ^ 8 % 16),
   hexDigit (n / 2 ^ 4 % 16), hexDigit (n % 16)]

/-- Model of `hashlib.sha256(s.encode()).hexdigest()`. -/
def sha256Hexdigest (s : String) : String :=
  ⟨(sha256Words (utf8Bytes s)).flatMap hexWord⟩

example : sha256Hexdigest "" =
    "e3b0c44298fc1c149afbf4c8996fb92427ae41e4649b934ca495991b7852b855" := by
  decide

example : sha256Hexdigest "abc" =
    "ba7816bf8f01cfea414140de5dae2223b00361a396177a9cb410ff61f20015ad" := by
  decide

/-! ### ElementTree model and `generate_rss_feed` -/

/-- An `xml.etree.ElementTree.Element`: tag, attributes, `.text`, children. -/
inductive XmlElem where
  | mk (tag : String) (attrs : List (String × String)) (text : Option String)
      (children : List XmlElem)

def XmlElem.tag : XmlElem → String
  | .mk t _ _ _ => t

def XmlElem.attrs : XmlElem → List (String × String)
  | .mk _ a _ _ => a

def XmlElem.textOf : XmlElem → Option String
  | .mk _ _ tx _ => tx

def XmlElem.children : XmlElem → List XmlElem
  | .mk _ _ _ ch => ch

instance : Inhabited XmlElem := ⟨.mk "" [] none []⟩

/-- A ModelUpdateRecord as handed to `generate_rss_feed`: a dict whose
four string fields may each be absent (`model_info.get` / `in` checks). -/
structure ModelUpdateRecord where
  title : Option String
  description : Option String
  link : Option String
  pubDate : Option String

/-- The channel `<link>` text (also the item-link default). -/
def channelLinkText : String :=
  "https://learn.microsoft.com/en-us/azure/ai-foundry/foundry-models/concepts/models-sold-directly-by-azure"

/-- The truncated hex digest used for the GUID:
`hashlib.sha256(model_info.get('title', '').encode()).hexdigest()[:32]`. -/
def guidHash (title : String) : String :=
  pyTake 32 (sha256Hexdigest title)

/-- The `<item>` element built for one record in the loop of
`generate_rss_feed` (lines 181–202).  `now` is the value of
`datetime.now(timezone.utc).strftime('%a, %d %b %Y %H:%M:%S +0000')`
at build time (the clock is assumed not to tick during one build). -/
def itemForModel (now : String) (m : ModelUpdateRecord) : XmlElem :=
  .mk "item" [] none
    [ .mk "title" [] (some (m.title.getD "Unknown Model")) [],
      .mk "link" [] (some (m.link.getD channelLinkText)) [],
      .mk "description" [] (some (m.description.getD "")) [],
      .mk "pubDate" []
        (some (match m.pubDate with | some d => d | none => now)) [],
      .mk "guid" [("isPermaLink", "false")]
        (some ("azure-foundry-model-" ++ guidHash (m.title.getD ""))) [] ]

/-- The in-memory RSS tree built by `generate_rss_feed` before
serialization (lines 160–202): channel metadata then one item per
record. -/
def generate_rss_feed (models : List ModelUpdateRecord) (now : String) :
    XmlElem :=
  .mk "rss" [("version", "2.0")] none
    [ .mk "channel" [] none
        ([ .mk "title" [] (some "Azure AI Foundry Model Updates") [],
           .mk "link" [] (some channelLinkText) [],
           .mk "description" []
             (some "Latest updates on Azure AI Foundry models sold directly by Azure") [],
           .mk "language" [] (some "en-us") [],
           .mk "lastBuildDate" [] (some now) [] ] ++
         models.map (itemForModel now)) ]

/-- The `<item>` elements of a generated feed: the children of the
(single) channel whose tag is `item`. -/
def feedItems (feed : XmlElem) : List XmlElem :=
  ((feed.children.headD default).children).filter (fun x => x.tag = "item")

/-- Text of the first child with the given tag (ElementTree `find`). -/
def childText (x : XmlElem) (t : String) : Option String :=
  match x.children.filter (fun c => c.tag = t) with
  | c :: _ => c.textOf
  | [] => none

/-- Attributes of the first child with the given tag. -/
def childAttrs (x : XmlElem) (t : String) : List (String × String) :=
  match x.children.filter (fun c => c.tag = t) with
  | c :: _ => c.attrs
  | [] => []

/-! ### Feed-builder lemmas -/

/-- The items of a generated feed are exactly the per-record items, in
order: the builder is a pointwise map with no special case. -/
theorem feedItems_generate (models : List ModelUpdateRecord) (now : String) :
    feedItems (generate_rss_feed models now) = models.map (itemForModel now) := by
  simp [feedItems, generate_rss_feed, itemForModel, XmlElem.children,
    XmlElem.tag, List.filter_append, List.filter_map, Function.comp]
  congr 1
  exact List.filter_eq_self.mpr (fun a _ => rfl)

theorem string_append_left_cancel (p a b : String) :
    p ++ a = p ++ b ↔ a = b := by
  constructor
  · intro h
    have hd := congrArg String.data h
    simp only [String.data_append] at hd
    exact String.ext (List.append_cancel_left hd)
  · intro h; rw [h]

theorem childText_item_title (now : String) (m : ModelUpdateRecord) :
    childText (itemForModel now m) "title" =
      some (m.title.getD "Unknown Model") := rfl

theorem childText_item_link (now : String) (m : ModelUpdateRecord) :
    childText (itemForModel now m) "link" =
      some (m.link.getD channelLinkText) := rfl

theorem childText_item_description (now : String) (m : ModelUpdateRecord) :
    childText (itemForModel now m) "description" =
      some (m.description.getD "") := rfl

theorem childText_item_pubDate (now : String) (m : ModelUpdateRecord) :
    childText (itemForModel now m) "pubDate" =
      some (match m.pubDate with | some d => d | none => now) := rfl

theorem childText_item_guid (now : String) (m : ModelUpdateRecord) :
    childText (itemForModel now m) "guid" =
      some ("azure-foundry-model-" ++ guidHash (m.title.getD "")) := rfl

/-- C1: for every list of N records, `generate_rss_feed` produces exactly
N `<item>` elements, and each item has exactly the five child elements
`title`, `link`, `description`, `pubDate`, `guid`, in that order. -/
theorem item_count_and_children (models : List ModelUpdateRecord)
    (now : String) :
    (feedItems (generate_rss_feed models now)).length = models.length
    ∧ ∀ x ∈ feedItems (generate_rss_feed models now),
        x.children.map XmlElem.tag =
          ["title", "link", "description", "pubDate", "guid"] := by
  rw [feedItems_generate]
  refine ⟨List.length_map _ _, ?_⟩
  intro x hx
  obtain ⟨r, _, rfl⟩ := List.mem_map.mp hx
  rfl

theorem item_count_and_children_witness :
    (feedItems (generate_rss_feed
        [⟨some "GPT-4 Turbo", some "Advanced", some "https://example.com", none⟩]
        "Mon, 01 Jan 2024 00:00:00 +0000")).length = 1
    ∧ (itemForModel "Mon, 01 Jan 2024 00:00:00 +0000"
        ⟨some "GPT-4 Turbo", some "Advanced", some "https://example.com", none⟩).children.map
          XmlElem.tag = ["title", "link", "description", "pubDate", "guid"] :=
  ⟨(item_count_and_children
      [⟨some "GPT-4 Turbo", some "Advanced", some "https://example.com", none⟩]
      "Mon, 01 Jan 2024 00:00:00 +0000").1,
   (item_count_and_children
      [⟨some "GPT-4 Turbo", some "Advanced", some "https://example.com", none⟩]
      "Mon, 01 Jan 2024 00:00:00 +0000").2 _
      (by rw [feedItems_generate]; exact List.mem_map_of_mem _ (List.mem_singleton.mpr rfl))⟩

/-- C2: the GUID text is a deterministic function of the record's title
(equal titles give equal GUIDs; unequal truncated digests give unequal
GUIDs, i.e. distinct titles differ modulo hash collision); the GUID is
the fixed prefix `azure-foundry-model-` concatenated with the
hex-encoded SHA-256 digest of the title truncated to 32 hex characters,
and the guid element carries `isPermaLink="false"`. -/
theorem guid_deterministic (m1 m2 : ModelUpdateRecord) (now1 now2 : String) :
    (m1.title = m2.title →
      childText (itemForModel now1 m1) "guid" =
        childText (itemForModel now2 m2) "guid")
    ∧ (guidHash (m1.title.getD "") ≠ guidHash (m2.title.getD "") →
        childText (itemForModel now1 m1) "guid" ≠
          childText (itemForModel now2 m2) "guid")
    ∧ childText (itemForModel now1 m1) "guid" =
        some ("azure-foundry-model-" ++
          pyTake 32 (sha256Hexdigest (m1.title.getD "")))
    ∧ childAttrs (itemForModel now1 m1) "guid" = [("isPermaLink", "false")] := by
  refine ⟨?_, ?_, ?_, ?_⟩
  · intro h
    rw [childText_item_guid, childText_item_guid, h]
  · intro h heq
    rw [childText_item_guid, childText_item_guid] at heq
    exact h ((string_append_left_cancel _ _ _).mp (Option.some.inj heq))
  · rw [childText_item_guid]; rfl
  · rfl

theorem guid_deterministic_witness :
    childText (itemForModel "n1" ⟨some "A", none, none, none⟩) "guid" ≠
      childText (itemForModel "n2" ⟨some "B", none, none, none⟩) "guid"
    ∧ childText (itemForModel "n1" ⟨some "A", none, none, none⟩) "guid" =
      childText (itemForModel "n2" ⟨some "A", none, none, none⟩) "guid" :=
  ⟨(guid_deterministic ⟨some "A", none, none, none⟩ ⟨some "B", none, none, none⟩
      "n1" "n2").2.1 (by decide),
   (guid_deterministic ⟨some "A", none, none, none⟩ ⟨some "A", none, none, none⟩
      "n1" "n2").1 rfl⟩

/-- C3: default filling for each record the Feed Builder emits.  `now`
is the RFC-822-formatted current UTC time at build time (the value of
`datetime.now(timezone.utc).strftime('%a, %d %b %Y %H:%M:%S +0000')`):
a record with no `pubDate` field gets `now`; no `link` field, the
channel's link; no `title` field, `"Unknown Model"`; no `description`
field, the empty string. -/
theorem item_defaults (models : List ModelUpdateRecord) (now : String)
    (m : ModelUpdateRecord) (hm : m ∈ models) :
    itemForModel now m ∈ feedItems (generate_rss_feed models now)
    ∧ (m.pubDate = none →
        childText (itemForModel now m) "pubDate" = some now)
    ∧ (m.link = none →
        childText (itemForModel now m) "link" = some channelLinkText)
    ∧ (m.title = none →
        childText (itemForModel now m) "title" = some "Unknown Model")
    ∧ (m.description = none →
        childText (itemForModel now m) "description" = some "") := by
  refine ⟨?_, ?_, ?_, ?_, ?_⟩
  · rw [feedItems_generate]; exact List.mem_map_of_mem _ hm
  · intro h; rw [childText_item_pubDate, h]
  · intro h; rw [childText_item_link, h]; rfl
  · intro h; rw [childText_item_title, h]; rfl
  · intro h; rw [childText_item_description, h]; rfl

theorem item_defaults_witness :
    itemForModel "Mon, 01 Jan 2024 00:00:00 +0000" ⟨none, none, none, none⟩ ∈
      feedItems (generate_rss_feed [⟨none, none, none, none⟩]
        "Mon, 01 Jan 2024 00:00:00 +0000")
    ∧ childText (itemForModel "Mon, 01 Jan 2024 00:00:00 +0000"
        ⟨none, none, none, none⟩) "pubDate" =
          some "Mon, 01 Jan 2024 00:00:00 +0000"
    ∧ childText (itemForModel "Mon, 01 Jan 2024 00:00:00 +0000"
        ⟨none, none, none, none⟩) "link" = some channelLinkText
    ∧ childText (itemForModel "Mon, 01 Jan 2024 00:00:00 +0000"
        ⟨none, none, none, none⟩) "title" = some "Unknown Model"
    ∧ childText (itemForModel "Mon, 01 Jan 2024 00:00:00 +0000"
        ⟨none, none, none, none⟩) "description" = some "" :=
  have h := item_defaults [⟨none, none, none, none⟩]
    "Mon, 01 Jan 2024 00:00:00 +0000" ⟨none, none, none, none⟩
    (List.mem_singleton.mpr rfl)
  ⟨h.1, h.2.1 rfl, h.2.2.1 rfl, h.2.2.2.1 rfl, h.2.2.2.2 rfl⟩

/-- C10: a record with no title field is emitted with title text
`"Unknown Model"` but its GUID is derived from the empty string, so it
differs from the GUID of a record whose title is literally
`"Unknown Model"`: two items can share the emitted title yet carry
distinct GUIDs. -/
theorem missing_title_guid (m m' : ModelUpdateRecord) (now now' : String)
    (h : m.title = none) (h' : m'.title = some "Unknown Model") :
    childText (itemForModel now m) "title" = some "Unknown Model"
    ∧ childText (itemForModel now' m') "title" = some "Unknown Model"
    ∧ childText (itemForModel now m) "guid" =
        some ("azure-foundry-model-" ++ guidHash "")
    ∧ childText (itemForModel now m) "guid" ≠
        childText (itemForModel now' m') "guid" := by
  refine ⟨?_, ?_, ?_, ?_⟩
  · rw [childText_item_title, h]; rfl
  · rw [childText_item_title, h']; rfl
  · rw [childText_item_guid, h]; rfl
  · intro heq
    rw [childText_item_guid, childText_item_guid, h, h'] at heq
    exact absurd ((string_append_left_cancel _ _ _).mp (Option.some.inj heq))
      (by decide)

theorem missing_title_guid_witness :
    childText (itemForModel "n1" ⟨none, none, none, none⟩) "title" =
      some "Unknown Model"
    ∧ childText (itemForModel "n2"
        ⟨some "Unknown Model", none, none, none⟩) "title" =
          some "Unknown Model"
    ∧ childText (itemForModel "n1" ⟨none, none, none, none⟩) "guid" =
        some ("azure-foundry-model-" ++ guidHash "")
    ∧ childText (itemForModel "n1" ⟨none, none, none, none⟩) "guid" ≠
        childText (itemForModel "n2"
          ⟨some "Unknown Model", none, none, none⟩) "guid" :=
  missing_title_guid ⟨none, none, none, none⟩
    ⟨some "Unknown Model", none, none, none⟩ "n1" "n2" rfl rfl

/-! ### `json.loads` model and the reply handling of
`extract_model_updates_with_llm` (lines 137–153) -/

/-- A Python value as produced by `json.loads` (numbers kept as their
source lexeme; `int`/`float` distinction is irrelevant to the claims). -/
inductive PyVal where
  | null
  | boolV (b : Bool)
  | num (raw : String)
  | str (s : String)
  | arr (l : List PyVal)
  | obj (l : List (String × PyVal))

/-- JSON whitespace accepted between tokens by `json.loads`. -/
def jsonWs (c : Char) : Bool := c = ' ' || c = '\t' || c = '\n' || c = '\r'

def skipWs (cs : List Char) : List Char := cs.dropWhile jsonWs

def hexVal (c : Char) : Option Nat :=
  if '0' ≤ c ∧ c ≤ '9' then some (c.toNat - '0'.toNat)
  else if 'a' ≤ c ∧ c ≤ 'f' then some (c.toNat - 'a'.toNat + 10)
  else if 'A' ≤ c ∧ c ≤ 'F' then some (c.toNat - 'A'.toNat + 10)
  else none

/-- JSON string body after the opening quote: escapes decoded, raw
control characters rejected (strict mode).  `\uXXXX` becomes the code
point directly (surrogate pairing is beyond this model; no claim
depends on it). -/
def parseJStrAux (acc : List Char) : List Char → Option (String × List Char)
  | '"' :: rest => some (⟨acc.reverse⟩, rest)
  | '\\' :: e :: rest =>
      match e with
      | '"' => parseJStrAux ('"' :: acc) rest
      | '\\' => parseJStrAux ('\\' :: acc) rest
      | '/' => parseJStrAux ('/' :: acc) rest
      | 'b' => parseJStrAux ('\x08' :: acc) rest
      | 'f' => parseJStrAux ('\x0c' :: acc) rest
      | 'n' => parseJStrAux ('\n' :: acc) rest
      | 'r' => parseJStrAux ('\r' :: acc) rest
      | 't' => parseJStrAux ('\t' :: acc) rest
      | 'u' =>
          match rest with
          | a :: b :: c :: d :: rest2 =>
              match hexVal a, hexVal b, hexVal c, hexVal d with
              | some x, some y, some z, some w =>
                  parseJStrAux
                    (Char.ofNat (x * 4096 + y * 256 + z * 16 + w) :: acc) rest2
              | _, _, _, _ => none
          | _ => none
      | _ => none
  | c :: rest => if c.toNat < 0x20 then none else parseJStrAux (c :: acc) rest
  | [] => none

/-- JSON number lexeme: `-?(0|[1-9][0-9]*)(\.[0-9]+)?([eE][+-]?[0-9]+)?`. -/
def parseJNum (cs : List Char) : Option (String × List Char) :=
  let (sign, cs1) :=
    match cs with
    | '-' :: r => ((['-'] : List Char), r)
    | _ => ([], cs)
  match cs1 with
  | c :: r =>
      if c = '0' ∨ ('1' ≤ c ∧ c ≤ '9') then
        let (moreInt, r1) :=
          if c = '0' then (([] : List Char), r)
          else (r.takeWhile Char.isDigit, r.dropWhile Char.isDigit)
        let (frac, r2) :=
          match r1 with
          | '.' :: f :: fr =>
              if f.isDigit then
                ('.' :: f :: fr.takeWhile Char.isDigit, fr.dropWhile Char.isDigit)
              else (([] : List Char), r1)
          | _ => ([], r1)
        let (ex, r3) :=
          match r2 with
          | e :: er =>
              if e = 'e' ∨ e = 'E' then
                match er with
                | '+' :: d :: dr =>
                    if d.isDigit then
                      (e :: '+' :: d :: dr.takeWhile Char.isDigit,
                       dr.dropWhile Char.isDigit)
                    else (([] : List Char), r2)
                | '-' :: d :: dr =>
                    if d.isDigit then
                      (e :: '-' :: d :: dr.takeWhile Char.isDigit,
                       dr.dropWhile Char.isDigit)
                    else ([], r2)
                | d :: dr =>
                    if d.isDigit then
                      (e :: d :: dr.takeWhile Char.isDigit,
                       dr.dropWhile Char.isDigit)
                    else ([], r2)
                | _ => ([], r2)
              else ([], r2)
          | _ => ([], r2)
        if ex.isEmpty then
          some (⟨sign ++ c :: moreInt ++ frac⟩, r2)
        else
          some (⟨sign ++ c :: moreInt ++ frac ++ ex⟩, r3)
      else none
  | [] => none

/-- Insert into a Python dict built up by `json.loads`: a repeated key
keeps its first position and takes the last value. -/
def objInsert : List (String × PyVal) → String → PyVal →
    List (String × PyVal)
  | [], k, v => [(k, v)]
  | (k', v') :: rest, k, v =>
      if k' = k then (k', v) :: rest else (k', v') :: objInsert rest k v

mutual

/-- One JSON value (fuel-indexed recursive descent).  Besides strict
JSON, `json.loads` accepts the constants `NaN`, `Infinity` and
`-Infinity` (floats), kept here as `num` lexemes. -/
def parseVal (fuel : Nat) (cs : List Char) : Option (PyVal × List Char) :=
  match fuel with
  | 0 => none
  | fuel + 1 =>
      match skipWs cs with
      | '{' :: rest =>
          match skipWs rest with
          | '}' :: r => some (.obj [], r)
          | _ => parseObjItems fuel rest []
      | '[' :: rest =>
          match skipWs rest with
          | ']' :: r => some (.arr [], r)
          | _ => parseArrItems fuel rest []
      | '"' :: rest => (parseJStrAux [] rest).map (fun p => (.str p.1, p.2))
      | 't' :: 'r' :: 'u' :: 'e' :: rest => some (.boolV true, rest)
      | 'f' :: 'a' :: 'l' :: 's' :: 'e' :: rest => some (.boolV false, rest)
      | 'n' :: 'u' :: 'l' :: 'l' :: rest => some (.null, rest)
      | 'N' :: 'a' :: 'N' :: rest => some (.num "NaN", rest)
      | 'I' :: 'n' :: 'f' :: 'i' :: 'n' :: 'i' :: 't' :: 'y' :: rest =>
          some (.num "Infinity", rest)
      | '-' :: 'I' :: 'n' :: 'f' :: 'i' :: 'n' :: 'i' :: 't' :: 'y' :: rest =>
          some (.num "-Infinity", rest)
      | other => (parseJNum other).map (fun p => (.num p.1, p.2))

/-- Object members after `{` (at least one member present). -/
def parseObjItems (fuel : Nat) (cs : List Char)
    (acc : List (String × PyVal)) : Option (PyVal × List Char) :=
  match fuel with
  | 0 => none
  | fuel + 1 =>
      match skipWs cs with
      | '"' :: rest =>
          match parseJStrAux [] rest with
          | none => none
          | some (k, r1) =>
              match skipWs r1 with
              | ':' :: r2 =>
                  match parseVal fuel r2 with
                  | none => none
                  | some (v, r3) =>
                      let acc' := objInsert acc k v
                      match skipWs r3 with
                      | ',' :: r4 => parseObjItems fuel r4 acc'
                      | '}' :: r4 => some (.obj acc', r4)
                      | _ => none
              | _ => none
      | _ => none

/-- Array elements after `[` (at least one element present). -/
def parseArrItems (fuel : Nat) (cs : List Char) (acc : List PyVal) :
    Option (PyVal × List Char) :=
  match fuel with
  | 0 => none
  | fuel + 1 =>
      match parseVal fuel cs with
      | none => none
      | some (v, r) =>
          match skipWs r with
          | ',' :: r2 => parseArrItems fuel r2 (acc ++ [v])
          | ']' :: r2 => some (.arr (acc ++ [v]), r2)
          | _ => none

end

/-- Model of `json.loads`: `none` exactly when `json.JSONDecodeError` is raised. -/
def jsonLoads (s : String) : Option PyVal :=
  match parseVal (2 * s.data.length + 2) s.data with
  | some (v, rest) => if skipWs rest = [] then some v else none
  | none => none

def isPrefixList : List Char → List Char → Bool
  | [], _ => true
  | a :: as, b :: bs => a = b && isPrefixList as bs
  | _ :: _, [] => false

/-- Python `s.split(sep)` for non-empty `sep`, on character lists
(fuel-indexed; `fuel = l.length` always suffices). -/
def splitOnCL (sep : List Char) (fuel : Nat) (l : List Char)
    (cur : List Char) : List (List Char) :=
  match fuel with
  | 0 => [cur.reverse ++ l]
  | fuel + 1 =>
      match l with
      | [] => [cur.reverse]
      | c :: rest =>
          if isPrefixList sep l then
            cur.reverse :: splitOnCL sep fuel (l.drop sep.length) []
          else
            splitOnCL sep fuel rest (c :: cur)

/-- Python `s.split(sep)` for non-empty `sep`. -/
def pySplit (sep s : String) : List String :=
  (splitOnCL sep.data s.data.length s.data []).map fun l => ⟨l⟩

/-- Python `sub in s` for a non-empty literal `sub`. -/
def pyContainsSub (sub s : String) : Bool := (pySplit sub s).length > 1

/-- The Markdown fence stripping of lines 141–145. -/
def stripFences (t : String) : String :=
  if pyContainsSub "```json" t then
    (pySplit "```" ((pySplit "```json" t).getD 1 "")).getD 0 ""
  else if pyContainsSub "```" t then
    (pySplit "```" ((pySplit "```" t).getD 1 "")).getD 0 ""
  else t

/-- A Python runtime error relevant here: `len()` of a sizeless value. -/
inductive PyErr where
  | typeError
deriving DecidableEq

/-- Python `len(v)` where `v` came from `json.loads`: defined for
strings, lists and dicts, `TypeError` otherwise. -/
def pyLenVal : PyVal → Option Nat
  | .str s => some s.data.length
  | .arr l => some l.length
  | .obj l => some l.length
  | _ => none

/-- The reply handling of `extract_model_updates_with_llm`
(lines 137–153): fence-strip, `strip()`, `json.loads`; on
`JSONDecodeError` log and return `[]`; on success log
`len(models)` (raising `TypeError` for sizeless values — uncaught) and
return the parsed value unchanged. -/
def processReply (result_text : String) : Except PyErr PyVal :=
  let t := stripFences result_text
  match jsonLoads (pyStrip t) with
  | none => .ok (.arr [])
  | some models =>
      match pyLenVal models with
      | some _ => .ok models
      | none => .error .typeError

/-- Stated from the spec's words (§3, §9), for comparison with the
code: the fixed record schema — a JSON array of objects whose fields
are among `title`, `description`, `link`, `pubDate` and are strings. -/
def specIsRecordList : PyVal → Bool
  | .arr l =>
      l.all fun v =>
        match v with
        | .obj fields =>
            fields.all fun kv =>
              (kv.1 = "title" || kv.1 = "description" ||
               kv.1 = "link" || kv.1 = "pubDate") &&
              (match kv.2 with | .str _ => true | _ => false)
        | _ => false
  | _ => false

/-- C4: a completion reply that is not parseable JSON (after the
optional fence stripping and `strip()`) makes `extract_model_updates_with_llm`
return the empty record list without raising. -/
theorem malformed_json_returns_empty (s : String)
    (h : jsonLoads (pyStrip (stripFences s)) = none) :
    processReply s = .ok (.arr []) := by
  simp only [processReply]
  rw [h]

theorem malformed_json_returns_empty_witness :
    processReply "this is not JSON" = .ok (.arr [])
    ∧ processReply "```json\nstill not \x7b JSON\n```" = .ok (.arr []) :=
  ⟨malformed_json_returns_empty "this is not JSON" rfl,
   malformed_json_returns_empty "```json\nstill not \x7b JSON\n```" rfl⟩

/-- C5 counterexample: a reply that parses as a JSON object (not a
record list) is returned as-is, not replaced by the empty list — the
extractor performs no schema validation. -/
theorem no_schema_validation_counterexample :
    processReply "\x7b\"a\": 1\x7d" = .ok (.obj [("a", .num "1")])
    ∧ specIsRecordList (.obj [("a", .num "1")]) = false
    ∧ (Except.ok (ε := PyErr) (PyVal.obj [("a", .num "1")]) ≠
        .ok (.arr [])) :=
  ⟨rfl, rfl, fun h => by injection h with h2; exact PyVal.noConfusion h2⟩

/-- C5 amended: the extractor does not validate the parsed value
against the record schema.  Whatever `json.loads` produces is returned
unchanged when it has a length (list, dict or string); a sizeless
parsed value (number, boolean, null) raises `TypeError` at the
record-count log line; only a parse failure yields the empty list. -/
theorem parse_result_returned_unvalidated (s : String) (v : PyVal)
    (h : jsonLoads (pyStrip (stripFences s)) = some v) :
    (∀ n, pyLenVal v = some n → processReply s = .ok v)
    ∧ (pyLenVal v = none → processReply s = .error .typeError) := by
  simp only [processReply]
  rw [h]
  dsimp only
  constructor
  · intro n hn; rw [hn]
  · intro hn; rw [hn]

theorem parse_result_returned_unvalidated_witness :
    processReply "[1, 2]" = .ok (.arr [.num "1", .num "2"])
    ∧ processReply "true" = .error .typeError :=
  ⟨(parse_result_returned_unvalidated "[1, 2]"
      (.arr [.num "1", .num "2"]) rfl).1 2 rfl,
   (parse_result_returned_unvalidated "true" (.boolV true) rfl).2 rfl⟩

/-! ### Content truncation and prompt construction (lines 97–125) -/

/-- The budget `max_chars = 12000` of line 100. -/
def max_chars : Nat := 12000

/-- Lines 100–103: truncate the content to at most `max_chars`
characters before building the prompt. -/
def truncateContent (content : String) : String :=
  if pyLenStr content > max_chars then pyTake max_chars content else content

/-- The fixed instruction template before the interpolated content. -/
def promptHead : String :=
  "You are analyzing a Microsoft Learn documentation page about Azure AI Foundry models.\n\nExtract the following information about each model mentioned:\n1. Model name\n2. Model description (brief summary)\n3. Key features or updates\n4. Any version information\n5. Availability information\n\nFormat your response as a JSON array of objects, where each object represents a model with these fields:\n- title: The model name\n- description: A brief description (2-3 sentences)\n- link: Use \"https://learn.microsoft.com/en-us/azure/ai-foundry/foundry-models/concepts/models-sold-directly-by-azure\" as the base link\n- pubDate: Use the current date/time\n\nHere\x27s the relevant page content (structured with headings and tables in plain text format):\n\n"

/-- The fixed instruction template after the interpolated content. -/
def promptTail : String :=
  "\n\nReturn ONLY valid JSON, no additional text.\n"

/-- The user prompt submitted to the completion request (lines 100–125):
the template with the (truncated) content interpolated. -/
def buildPrompt (content : String) : String :=
  promptHead ++ truncateContent content ++ promptTail

/-- C7: the content block submitted to the completion request is
truncated to at most `max_chars` (12000) characters; content at or
below the budget is passed unchanged, longer content is cut to exactly
its first 12000 characters, and the prompt embeds exactly the
truncated content. -/
theorem truncation_bounds (c : String) :
    pyLenStr (truncateContent c) ≤ max_chars
    ∧ (pyLenStr c ≤ max_chars → truncateContent c = c)
    ∧ (pyLenStr c > max_chars → truncateContent c = pyTake max_chars c)
    ∧ buildPrompt c = promptHead ++ truncateContent c ++ promptTail := by
  refine ⟨?_, ?_, ?_, rfl⟩
  · unfold truncateContent
    split
    · simp only [pyLenStr, pyTake, List.length_take]
      exact min_le_left _ _
    · next hgt => omega
  · intro h
    unfold truncateContent
    rw [if_neg]
    omega
  · intro h
    unfold truncateContent
    rw [if_pos h]

theorem truncation_bounds_witness :
    truncateContent "short content" = "short content"
    ∧ truncateContent ⟨List.replicate 12001 'a'⟩ =
        pyTake max_chars ⟨List.replicate 12001 'a'⟩
    ∧ pyLenStr (truncateContent ⟨List.replicate 12001 'a'⟩) ≤ max_chars :=
  ⟨(truncation_bounds "short content").2.1 (by decide),
   (truncation_bounds ⟨List.replicate 12001 'a'⟩).2.2.1
     (by show (List.replicate 12001 'a').length > max_chars
         rw [List.length_replicate]
         decide),
   (truncation_bounds ⟨List.replicate 12001 'a'⟩).1⟩

/-! ### HTML model and `fetch_page_content` (lines 21–84)

A parsed HTML document is a forest of nodes (the BeautifulSoup object's
top-level children); BeautifulSoup's `find`/`find_all` search all
descendants in document order, `decompose` removes subtrees, and
`get_text(separator, strip=True)` joins the stripped non-empty
descendant text nodes.  (`Html`/`HtmlForest` is a mutual pair rather
than `Html`/`List Html` so that the traversals below are structurally
recursive and compute.) -/

mutual

inductive Html where
  | tag (name : String) (attrs : List (String × String))
      (children : HtmlForest)
  | text (s : String)

inductive HtmlForest where
  | nil
  | cons (h : Html) (t : HtmlForest)

end

/-- Build a forest from a list of nodes. -/
def forest : List Html → HtmlForest
  | [] => .nil
  | h :: t => .cons h (forest t)

/-- Match on the element name, as in `soup.find(name)`. -/
def tagIs (t : String) : Html → Bool
  | .tag n _ _ => n = t
  | .text _ => false

/-- Match on the `id` attribute, as in `soup.find(id=v)`. -/
def hasId (v : String) : Html → Bool
  | .tag _ attrs _ => attrs.any fun kv => kv.1 = "id" && kv.2 = v
  | .text _ => false

mutual

/-- First node of a subtree satisfying `p`, in document order
(`find` never matches bare strings). -/
def findNodeH (p : Html → Bool) : Html → Option Html
  | .text _ => none
  | .tag n a ch =>
      if p (.tag n a ch) then some (.tag n a ch) else findNodeF p ch

/-- First node of a forest satisfying `p`, in document order. -/
def findNodeF (p : Html → Bool) : HtmlForest → Option Html
  | .nil => none
  | .cons h rest =>
      match findNodeH p h with
      | some r => some r
      | none => findNodeF p rest

end

/-- The element names decomposed before text extraction (lines 37, 71). -/
def nonContentTags : List String :=
  ["script", "style", "nav", "header", "footer", "aside"]

/-- Is this node an element whose name is in `bad`? -/
def isBadTag (bad : List String) : Html → Bool
  | .tag n _ _ => bad.contains n
  | .text _ => false

mutual

/-- Model of `element.decompose()` applied to every descendant whose
name is in `bad` (inside one subtree). -/
def removeTagsH (bad : List String) : Html → Html
  | .text s => .text s
  | .tag n a ch => .tag n a (removeTagsF bad ch)

/-- Model of `decompose` over a forest. -/
def removeTagsF (bad : List String) : HtmlForest → HtmlForest
  | .nil => .nil
  | .cons h rest =>
      if isBadTag bad h then removeTagsF bad rest
      else .cons (removeTagsH bad h) (removeTagsF bad rest)

end

mutual

/-- Model of `_all_strings(strip=True)` of a subtree: each descendant
text node stripped, empties skipped, in document order. -/
def textPiecesH : Html → List String
  | .text s => if pyStrip s = "" then [] else [pyStrip s]
  | .tag _ _ ch => textPiecesF ch

/-- Model of `_all_strings(strip=True)` of a forest. -/
def textPiecesF : HtmlForest → List String
  | .nil => []
  | .cons h rest => textPiecesH h ++ textPiecesF rest

end

/-- Python `sep.join` on a string list. -/
def joinSep (sep : String) : List String → String
  | [] => ""
  | [a] => a
  | a :: rest => a ++ sep ++ joinSep sep rest

/-- Model of `element.get_text(separator=sep, strip=True)`. -/
def getTextH (sep : String) (h : Html) : String := joinSep sep (textPiecesH h)

/-- Model of `soup.get_text(separator=sep, strip=True)` over the whole
document. -/
def getTextF (sep : String) (f : HtmlForest) : String :=
  joinSep sep (textPiecesF f)

mutual

/-- The matching nodes of a subtree (itself included), in document
order. -/
def findAllInH (t : String) : Html → List Html
  | .text _ => []
  | .tag n a ch =>
      (if n = t then [Html.tag n a ch] else []) ++ findAllInF t ch

/-- The matching nodes of a forest, in document order. -/
def findAllInF (t : String) : HtmlForest → List Html
  | .nil => []
  | .cons h rest => findAllInH t h ++ findAllInF t rest

end

/-- Model of `element.find_all(name)`: matching proper descendants. -/
def findAllH (t : String) : Html → List Html
  | .text _ => []
  | .tag _ _ ch => findAllInF t ch

def headingTags : List String := ["h1", "h2", "h3", "h4"]

def paraTags : List String := ["p", "ul", "ol", "table", "div"]

/-- The sibling scan after a heading (lines 46–53): walk the following
siblings, stop at the next heading, and collect the non-empty
`get_text(separator=' ', strip=True)` of paragraph-like elements
(`find_next_siblings()` yields only elements). -/
def scanSiblings : HtmlForest → List String
  | .nil => []
  | .cons (.text _) rest => scanSiblings rest
  | .cons (.tag n a ch) rest =>
      if headingTags.contains n then []
      else if paraTags.contains n then
        (let t := getTextH " " (.tag n a ch)
         if t = "" then [] else [t]) ++ scanSiblings rest
      else scanSiblings rest

/-- The contribution of one node found by the heading walk: for a
heading, its `HEADING:` marker (when its stripped text is non-empty)
followed by its sibling scan. -/
def headingEmit : Html → HtmlForest → List String
  | .tag n a ch, rest =>
      if headingTags.contains n then
        (let ht := getTextH "" (.tag n a ch)
         if ht = "" then [] else ["\nHEADING: " ++ ht ++ "\n"]) ++
          scanSiblings rest
      else []
  | .text _, _ => []

mutual

/-- The heading walk of lines 41–53 started from one element. -/
def headingWalkH : Html → List String
  | .text _ => []
  | .tag _ _ ch => headingWalkF ch

/-- The heading walk over a forest: for each heading descendant in
document order, its marker and sibling scan. -/
def headingWalkF : HtmlForest → List String
  | .nil => []
  | .cons h rest => headingEmit h rest ++ headingWalkH h ++ headingWalkF rest

end

/-- One table's contribution (lines 56–68): marker, pipe-joined header
cells when any `th` exists, then one pipe-joined line per row with `td`
cells. -/
def tableContent (idx : Nat) (tbl : Html) : List String :=
  ["\nTABLE " ++ toString (idx + 1) ++ ":\n"] ++
  (let headers := (findAllH "th" tbl).map fun th => getTextH "" th
   if headers.isEmpty then [] else [joinSep " | " headers]) ++
  ((findAllH "tr" tbl).filterMap fun row =>
    let cells := (findAllH "td" row).map fun td => getTextH "" td
    if cells.isEmpty then none else some (joinSep " | " cells))

/-- All tables of the main-content region, each rendered (lines 56–68). -/
def tablesContent (mc : Html) : List String :=
  ((findAllH "table" mc).enum.map fun p => tableContent p.1 p.2).flatten

/-- Model of `fetch_page_content` after the HTTP fetch and parse
(lines 27–84):
locate the main content region (`main`, else `article`, else
`id="main-content"`); inside it, decompose non-content elements, walk
headings with their sibling content, then tables; with no main region,
decompose non-content elements in the whole document and take its
flattened text.  Finally join the pieces with newlines and collapse to
non-blank trimmed lines. -/
def fetch_page_content (doc : HtmlForest) : String :=
  let mainContent :=
    match findNodeF (tagIs "main") doc with
    | some m => some m
    | none =>
        match findNodeF (tagIs "article") doc with
        | some m => some m
        | none => findNodeF (hasId "main-content") doc
  let relevant_content :=
    match mainContent with
    | some mc =>
        let mc2 := removeTagsH nonContentTags mc
        headingWalkH mc2 ++ tablesContent mc2
    | none => [getTextF " " (removeTagsF nonContentTags doc)]
  cleanupLines (joinSep "\n" relevant_content)

/-! ### Lemmas for the fallback-extraction claim -/

theorem mem_dropWhile_of_not {α} (p : α → Bool) {x : α} {l : List α}
    (hx : x ∈ l) (hp : p x = false) : x ∈ l.dropWhile p := by
  induction l with
  | nil => exact absurd hx (List.not_mem_nil x)
  | cons a as ih =>
      cases hpa : p a with
      | true =>
          rw [List.dropWhile_cons_of_pos hpa]
          apply ih
          rcases List.mem_cons.mp hx with rfl | h
          · rw [hp] at hpa; exact absurd hpa (by simp)
          · exact h
      | false =>
          rw [List.dropWhile_cons_of_neg (by simp [hpa])]
          exact hx

theorem dropWhile_eq_cons_head_not {α} (p : α → Bool) (l : List α) {y : α}
    {ys : List α} (h : l.dropWhile p = y :: ys) : p y = false := by
  induction l with
  | nil => simp [List.dropWhile] at h
  | cons a as ih =>
      cases hpa : p a with
      | true =>
          rw [List.dropWhile_cons_of_pos hpa] at h
          exact ih h
      | false =>
          rw [List.dropWhile_cons_of_neg (by simp [hpa])] at h
          injection h with h1 _
          subst h1
          exact hpa

theorem exists_nonspace_of_stripChars_ne {l : List Char}
    (h : stripChars l ≠ []) : ∃ c ∈ stripChars l, pySpace c = false := by
  rcases hm : l.dropWhile pySpace with _ | ⟨y, ys⟩
  · exact absurd (by unfold stripChars; rw [hm]; rfl) h
  · have hy : pySpace y = false := dropWhile_eq_cons_head_not pySpace l hm
    refine ⟨y, ?_, hy⟩
    unfold stripChars
    refine List.mem_reverse.mpr (mem_dropWhile_of_not _ ?_ hy)
    refine List.mem_reverse.mpr ?_
    rw [hm]
    exact List.mem_cons_self y ys

theorem splitNL_ne_nil : ∀ (l : List Char), splitNL l ≠ []
  | [] => by simp [splitNL]
  | c :: rest => by
      cases h : splitNL rest with
      | nil => simp [splitNL, h]
      | cons a as =>
          simp only [splitNL, h]
          split <;> simp

theorem mem_splitNL {c : Char} : ∀ {l : List Char}, c ∈ l → c ≠ '\n' →
    ∃ a ∈ splitNL l, c ∈ a := by
  intro l
  induction l with
  | nil => intro h _; exact absurd h (List.not_mem_nil c)
  | cons x rest ih =>
      intro hc hne
      rcases List.mem_cons.mp hc with rfl | hmem
      · cases h : splitNL rest with
        | nil => exact absurd h (splitNL_ne_nil rest)
        | cons a as =>
            refine ⟨c :: a, ?_, List.mem_cons_self c a⟩
            simp only [splitNL, h, if_neg hne]
            exact List.mem_cons_self _ _
      · obtain ⟨a, ha, hca⟩ := ih hmem hne
        cases h : splitNL rest with
        | nil => rw [h] at ha; exact absurd ha (List.not_mem_nil a)
        | cons a0 as =>
            rw [h] at ha
            by_cases hx : x = '\n'
            · refine ⟨a, ?_, hca⟩
              simp only [splitNL, h, if_pos hx]
              exact List.mem_cons_of_mem _ ha
            · rcases List.mem_cons.mp ha with rfl | ha2
              · refine ⟨x :: a, ?_, List.mem_cons_of_mem _ hca⟩
                simp only [splitNL, h, if_neg hx]
                exact List.mem_cons_self _ _
              · refine ⟨a, ?_, hca⟩
                simp only [splitNL, h, if_neg hx]
                exact List.mem_cons_of_mem _ ha2

theorem mem_joinSep {c : Char} (sep : String) :
    ∀ (ps : List String) (p : String), p ∈ ps → c ∈ p.data →
      c ∈ (joinSep sep ps).data
  | [], p, hp, _ => absurd hp (List.not_mem_nil p)
  | [a], p, hp, hc => by
      rw [List.mem_singleton] at hp
      subst hp
      simpa [joinSep] using hc
  | a :: b :: rest, p, hp, hc => by
      rw [show joinSep sep (a :: b :: rest) =
            a ++ sep ++ joinSep sep (b :: rest) from rfl]
      simp only [String.data_append, List.mem_append]
      rcases List.mem_cons.mp hp with rfl | hp2
      · exact Or.inl (Or.inl hc)
      · exact Or.inr (mem_joinSep sep (b :: rest) p hp2 hc)

theorem cleanupLines_ne_empty {s : String} {c : Char} (hc : c ∈ s.data)
    (hs : pySpace c = false) : cleanupLines s ≠ "" := by
  have hne : c ≠ '\n' := by
    rintro rfl
    rw [show pySpace '\n' = true from rfl] at hs
    exact absurd hs (by simp)
  obtain ⟨a, ha, hca⟩ := mem_splitNL hc hne
  have hstrip : c ∈ stripChars a := by
    unfold stripChars
    exact List.mem_reverse.mpr (mem_dropWhile_of_not _
      (List.mem_reverse.mpr (mem_dropWhile_of_not _ hca hs)) hs)
  have hne2 : stripChars a ≠ [] := List.ne_nil_of_mem hstrip
  have hmem : stripChars a ∈
      ((splitNL s.data).map stripChars).filter (· ≠ []) :=
    List.mem_filter.mpr ⟨List.mem_map_of_mem _ ha, decide_eq_true hne2⟩
  obtain ⟨b, bs, hbs⟩ :=
    List.exists_cons_of_ne_nil (List.ne_nil_of_mem hmem)
  have hbne : b ≠ [] := by
    have hbmem : b ∈ ((splitNL s.data).map stripChars).filter (· ≠ []) := by
      rw [hbs]; exact List.mem_cons_self b bs
    exact of_decide_eq_true (List.mem_filter.mp hbmem).2
  intro h0
  have h1 : joinNL (((splitNL s.data).map stripChars).filter (· ≠ [])) =
      [] := congrArg String.data h0
  rw [hbs] at h1
  simp only [joinNL, List.append_eq_nil] at h1
  exact hbne h1.1

mutual

theorem textPiecesH_nonspace : ∀ (h : Html), ∀ p ∈ textPiecesH h,
    ∃ c ∈ p.data, pySpace c = false
  | .text s => by
      intro p hp
      simp only [textPiecesH] at hp
      split at hp
      · exact absurd hp (List.not_mem_nil p)
      · next hne =>
          rw [List.mem_singleton] at hp
          subst hp
          apply exists_nonspace_of_stripChars_ne
          intro h0
          apply hne
          show String.mk (stripChars s.data) = ""
          rw [h0]
  | .tag n a ch => by
      intro p hp
      simp only [textPiecesH] at hp
      exact textPiecesF_nonspace ch p hp

theorem textPiecesF_nonspace : ∀ (f : HtmlForest), ∀ p ∈ textPiecesF f,
    ∃ c ∈ p.data, pySpace c = false
  | .nil => by intro p hp; simp [textPiecesF] at hp
  | .cons h rest => by
      intro p hp
      simp only [textPiecesF] at hp
      rcases List.mem_append.mp hp with h1 | h2
      · exact textPiecesH_nonspace h p h1
      · exact textPiecesF_nonspace rest p h2

end

/-- C9: when a parsed document has no `main` element, no `article`
element and no element with `id="main-content"`, `fetch_page_content`
falls back to the whole document with script/style/nav/header/footer/
aside removed, returning its flattened text collapsed to non-blank
trimmed lines joined by newlines; and the result is non-empty whenever
some text outside the removed elements has non-blank content. -/
theorem fallback_extraction (doc : HtmlForest)
    (h1 : findNodeF (tagIs "main") doc = none)
    (h2 : findNodeF (tagIs "article") doc = none)
    (h3 : findNodeF (hasId "main-content") doc = none) :
    fetch_page_content doc =
      cleanupLines (getTextF " " (removeTagsF nonContentTags doc))
    ∧ (textPiecesF (removeTagsF nonContentTags doc) ≠ [] →
        fetch_page_content doc ≠ "") := by
  have heq : fetch_page_content doc =
      cleanupLines (getTextF " " (removeTagsF nonContentTags doc)) := by
    unfold fetch_page_content
    rw [h1, h2, h3]
    rfl
  refine ⟨heq, ?_⟩
  intro hne
  obtain ⟨p, hp⟩ := List.exists_mem_of_ne_nil _ hne
  obtain ⟨c, hcp, hcs⟩ := textPiecesF_nonspace _ p hp
  rw [heq]
  exact cleanupLines_ne_empty (mem_joinSep " " _ p hp hcp) hcs

theorem fallback_extraction_witness :
    fetch_page_content
        (forest [Html.tag "html" [] (forest [Html.tag "body" [] (forest
          [Html.tag "nav" [] (forest [Html.text "menu"]),
           Html.tag "p" [] (forest [Html.text "  Hello world  "]),
           Html.tag "script" [] (forest [Html.text "var x = 1;"])])])]) =
      cleanupLines (getTextF " " (removeTagsF nonContentTags
        (forest [Html.tag "html" [] (forest [Html.tag "body" [] (forest
          [Html.tag "nav" [] (forest [Html.text "menu"]),
           Html.tag "p" [] (forest [Html.text "  Hello world  "]),
           Html.tag "script" [] (forest [Html.text "var x = 1;"])])])])))
    ∧ fetch_page_content
        (forest [Html.tag "html" [] (forest [Html.tag "body" [] (forest
          [Html.tag "nav" [] (forest [Html.text "menu"]),
           Html.tag "p" [] (forest [Html.text "  Hello world  "]),
           Html.tag "script" [] (forest [Html.text "var x = 1;"])])])]) ≠
        "" :=
  have h := fallback_extraction
    (forest [Html.tag "html" [] (forest [Html.tag "body" [] (forest
      [Html.tag "nav" [] (forest [Html.text "menu"]),
       Html.tag "p" [] (forest [Html.text "  Hello world  "]),
       Html.tag "script" [] (forest [Html.text "var x = 1;"])])])])
    rfl rfl rfl
  ⟨h.1, h.2 (by decide)⟩

/-! ### `main` (lines 218–258), as a trace of observable events

`mainRun` takes the process environment and the (assumed successful)
network responses — the parsed page and the completion reply text — and
returns the list of observable events in order plus the exit code.
Only the error messages printed on the failure paths are modelled as
events; informational prints are omitted. -/

inductive MainEvent where
  | printMsg (s : String)
  | httpGet (url : String)
  | llmRequest (contentSent : String)
  | fileWrite (path : String) (doc : XmlElem)

/-- The fixed page URL of line 221. -/
def feedUrl : String :=
  "https://learn.microsoft.com/en-us/azure/ai-foundry/foundry-models/concepts/models-sold-directly-by-azure?view=foundry&preserve-view=true&tabs=global-standard-aoai%2Cglobal-standard&pivots=azure-openai"

def output_file : String := "foundry-models.rss"

/-- The message printed when credentials are missing (line 230). -/
def configErrorMsg : String :=
  "Error: AZURE_OPENAI_API_KEY and AZURE_OPENAI_ENDPOINT environment variables must be set"

/-- The message prefix printed by the top-level handler (line 255);
the interpolated exception text is not modelled. -/
def errorRunMsg : String := "Error generating RSS feed: "

/-- Python truthiness of `os.environ.get(...)`: `None` and the empty
string are falsy. -/
def pyTruthyEnv : Option String → Bool
  | none => false
  | some s => s ≠ ""

/-- Python `dict.get(k)` on a parsed JSON object. -/
def pyGetField (o : List (String × PyVal)) (k : String) : Option PyVal :=
  (o.find? fun kv => kv.1 = k).map fun kv => kv.2

/-- A present `title` must be a string: a JSON null or other
non-string title raises at `.encode()` in the GUID hash
(`AttributeError`), so the run exits 1 like any runtime error. -/
def titleFieldToOptStr : Option PyVal → Option (Option String)
  | none => some none
  | some (.str s) => some (some s)
  | some _ => none

/-- A present non-title field: a string is kept; a JSON null becomes
`ElementTree` text `None`, which serializes identically to the empty
string, so it is modelled as `some ""`; any other non-string value
raises at serialization (`tostring` cannot serialize it), exiting 1. -/
def fieldToOptStr : Option PyVal → Option (Option String)
  | none => some none
  | some (.str s) => some (some s)
  | some .null => some (some "")
  | some _ => none

/-- Read one parsed JSON value as a ModelUpdateRecord. -/
def recordOfPyVal : PyVal → Option ModelUpdateRecord
  | .obj o => do
      let t ← titleFieldToOptStr (pyGetField o "title")
      let d ← fieldToOptStr (pyGetField o "description")
      let l ← fieldToOptStr (pyGetField o "link")
      let p ← fieldToOptStr (pyGetField o "pubDate")
      some ⟨t, d, l, p⟩
  | _ => none

/-- Read the extractor's value as the record list consumed by
`generate_rss_feed`. -/
def toRecords : PyVal → Option (List ModelUpdateRecord)
  | .arr l => l.mapM recordOfPyVal
  | _ => none

/-- Does the number lexeme denote zero (`0`, `-0.000`, `0e5`, ...)?
The non-numeric constants `NaN`, `Infinity`, `-Infinity` have no digit
and are truthy, like their Python float values. -/
def numLexemeIsZero (raw : String) : Bool :=
  let mantissa := raw.data.takeWhile fun c => c ≠ 'e' ∧ c ≠ 'E'
  mantissa.any (fun c => c.isDigit) &&
    mantissa.all fun c => !('1' ≤ c && c ≤ '9')

/-- Python falsiness of a `json.loads` result (`if not models:`). -/
def isPyFalsy : PyVal → Bool
  | .null => true
  | .boolV b => !b
  | .num raw => numLexemeIsZero raw
  | .str s => s = ""
  | .arr l => l.isEmpty
  | .obj l => l.isEmpty

/-- The placeholder record substituted by `main` (lines 242–247) when
no models were extracted. -/
def placeholderRecord (now : String) : ModelUpdateRecord :=
  ⟨some "No updates available",
   some "Failed to extract model information from the page.",
   some feedUrl, some now⟩

/-- Model of `main` (lines 218–258): check credentials (exit 1 before any
network event when missing), fetch and reduce the page, call the LLM
with the truncated content, substitute the placeholder when the
extracted value is falsy, build and write the feed; any runtime error
in the `try` block prints the handler message and exits 1. -/
def mainRun (env : String → Option String) (page : HtmlForest)
    (llmReply : String) (now : String) : List MainEvent × Nat :=
  let api_key := env "AZURE_OPENAI_API_KEY"
  let endpoint := env "AZURE_OPENAI_ENDPOINT"
  if !(pyTruthyEnv api_key && pyTruthyEnv endpoint) then
    ([.printMsg configErrorMsg], 1)
  else
    let content := fetch_page_content page
    let fetchEv := MainEvent.httpGet feedUrl
    let llmEv := MainEvent.llmRequest (truncateContent content)
    match processReply llmReply with
    | .error _ => ([fetchEv, llmEv, .printMsg errorRunMsg], 1)
    | .ok models =>
        if isPyFalsy models then
          ([fetchEv, llmEv,
            .fileWrite output_file
              (generate_rss_feed [placeholderRecord now] now)], 0)
        else
          match toRecords models with
          | some records =>
              ([fetchEv, llmEv,
                .fileWrite output_file (generate_rss_feed records now)], 0)
          | none => ([fetchEv, llmEv, .printMsg errorRunMsg], 1)

/-- C8: when the API-key or endpoint environment variable is missing,
`main` prints the descriptive error and exits with status 1, and its
trace contains no network event (no page fetch, no LLM call) and no
file write. -/
theorem config_error_fast_fail (env : String → Option String)
    (page : HtmlForest) (llmReply now : String)
    (h : env "AZURE_OPENAI_API_KEY" = none ∨
      env "AZURE_OPENAI_ENDPOINT" = none) :
    mainRun env page llmReply now = ([.printMsg configErrorMsg], 1)
    ∧ ∀ e ∈ (mainRun env page llmReply now).1,
        (∀ u, e ≠ .httpGet u) ∧ (∀ c, e ≠ .llmRequest c) ∧
        (∀ f d, e ≠ .fileWrite f d) := by
  have hmain : mainRun env page llmReply now =
      ([.printMsg configErrorMsg], 1) := by
    unfold mainRun
    rcases h with h | h <;> rw [h] <;> simp [pyTruthyEnv]
  refine ⟨hmain, ?_⟩
  rw [hmain]
  intro e he
  rw [List.mem_singleton] at he
  subst he
  exact ⟨fun u h0 => MainEvent.noConfusion h0,
    fun c h0 => MainEvent.noConfusion h0,
    fun f d h0 => MainEvent.noConfusion h0⟩

theorem config_error_fast_fail_witness :
    mainRun
        (fun k => if k = "AZURE_OPENAI_ENDPOINT" then
          some "https://example.endpoint" else none)
        (forest []) "a reply" "now" = ([.printMsg configErrorMsg], 1) :=
  (config_error_fast_fail
    (fun k => if k = "AZURE_OPENAI_ENDPOINT" then
      some "https://example.endpoint" else none)
    (forest []) "a reply" "now" (Or.inl rfl)).1

/-- C6: when the Update Extractor returns zero records (an empty JSON
array), `main` substitutes exactly one placeholder record titled
`"No updates available"` before invoking the Feed Builder, so the
written feed has exactly one item, whose title is the placeholder
text; and the Feed Builder itself never special-cases an empty list —
its items are always the pointwise image of its input records. -/
theorem empty_extraction_placeholder (env : String → Option String)
    (page : HtmlForest) (llmReply now : String)
    (h1 : pyTruthyEnv (env "AZURE_OPENAI_API_KEY") = true)
    (h2 : pyTruthyEnv (env "AZURE_OPENAI_ENDPOINT") = true)
    (h : processReply llmReply = .ok (.arr [])) :
    mainRun env page llmReply now =
      ([.httpGet feedUrl,
        .llmRequest (truncateContent (fetch_page_content page)),
        .fileWrite output_file
          (generate_rss_feed [placeholderRecord now] now)], 0)
    ∧ feedItems (generate_rss_feed [placeholderRecord now] now) =
        [itemForModel now (placeholderRecord now)]
    ∧ childText (itemForModel now (placeholderRecord now)) "title" =
        some "No updates available"
    ∧ ∀ (models : List ModelUpdateRecord) (now2 : String),
        feedItems (generate_rss_feed models now2) =
          models.map (itemForModel now2) := by
  refine ⟨?_, ?_, rfl, fun models now2 => feedItems_generate models now2⟩
  · unfold mainRun
    rw [h]
    simp [h1, h2, isPyFalsy]
  · rw [feedItems_generate]
    rfl

theorem empty_extraction_placeholder_witness :
    mainRun (fun _ => some "configured") (forest []) "[]" "now" =
      ([.httpGet feedUrl,
        .llmRequest (truncateContent (fetch_page_content (forest []))),
        .fileWrite output_file
          (generate_rss_feed [placeholderRecord "now"] "now")], 0)
    ∧ feedItems (generate_rss_feed [placeholderRecord "now"] "now") =
        [itemForModel "now" (placeholderRecord "now")]
    ∧ childText (itemForModel "now" (placeholderRecord "now")) "title" =
        some "No updates available" :=
  have h := empty_extraction_placeholder (fun _ => some "configured")
    (forest []) "[]" "now" rfl rfl rfl
  ⟨h.1, h.2.1, h.2.2.1⟩
